import Mathlib

/-!
Verification of the ClickUp → Intercom synchronization engine (`synch.py`).

The development shallowly embeds the functions of `synch.py` that the
specification's claims are about:

* `fetch_tasks_from_list` — the paginated task enumeration loop;
* `_rate_limit_sleep` and the surrounding `while` retry pattern;
* `fetch_clickup_tasks` — hierarchy traversal with the ignored-list filter;
* `find_existing_article`, `create_internal_article`,
  `update_internal_article`, `upsert_internal_article` — the upsert path
  against the Intercom internal-articles store;
* `_load_state` and the watermark/checkpoint logic of `main`.

External collaborators (the two HTTP APIs, the Markdown renderer, the HTML
escaper) are modelled as parameters: page servers are functions from a page
index to a batch, the destination search transport is a function returning
`Except` (so transport failures are representable), and rendering functions
are passed in.  The Intercom document store is modelled as a list of
articles whose search endpoint performs exact-title matching.  Machine
details that the claims do not touch (HTTP headers, logging, JSON wire
format) are elided; control flow, truncation bounds and string formats are
kept exactly as in the source.
-/

namespace Synch

/-- A ClickUp task as consumed by the sync: `id`, `name`,
`markdown_description` and `description` fields (absent fields are the
empty string, mirroring Python falsiness of `None` and `""`). -/
structure Task where
  id : String
  name : String
  markdown_description : String
  description : String
  deriving Repr, DecidableEq

/-- The description fallback applied to every fetched task
(`synch.py` lines 162-164): `desc = t.get('markdown_description') or
t.get('description') or ""` stored back into `t['description']`. -/
def applyDescFallback (t : Task) : Task :=
  { t with description :=
      if t.markdown_description ≠ "" then t.markdown_description else t.description }

/-- The server-side pagination of a source collection holding the records
`l` split into pages of size `P`: page `i` is `(l.drop (i*P)).take P`. -/
def pagesOf (l : List Task) (P : Nat) (i : Nat) : List Task :=
  (l.drop (i * P)).take P

/-- The page loop of `fetch_tasks_from_list` (`synch.py` lines 134-167):
starting at page index `page`, request the page, stop if the batch is
empty, otherwise append the batch (with the description fallback applied)
and continue with `page + 1`.  `server` abstracts the (rate-limit-resolved)
ClickUp endpoint; `fuel` bounds the unboundedly-recursive `while True`.
Returns the accumulated tasks together with the trace of requested page
indices (the terminating empty-page request included). -/
def fetchTasksLoop (server : Nat → List Task) (page : Nat) (fuel : Nat) :
    List Task × List Nat :=
  match fuel with
  | 0 => ([], [])
  | fuel + 1 =>
    let batch := server page
    if batch.isEmpty then ([], [page])
    else
      let rest := fetchTasksLoop server (page + 1) fuel
      (batch.map applyDescFallback ++ rest.1, page :: rest.2)

/-- `fetch_tasks_from_list` (`synch.py` lines 132-167): run the page loop
from page `0`. -/
def fetch_tasks_from_list (server : Nat → List Task) (fuel : Nat) :
    List Task × List Nat :=
  fetchTasksLoop server 0 fuel

/-- Number of page requests issued over a collection of `n` records with
page size `P` before the empty page: `⌈n / P⌉`. -/
def numPages (n P : Nat) : Nat := (n + P - 1) / P

/-- An HTTP response as seen by the retry logic: its status code and the
optional `Retry-After` header. -/
structure Resp where
  status : Nat
  retryAfterHeader : Option Nat
  deriving Repr, DecidableEq

/-- The wait duration extracted by `_rate_limit_sleep` (`synch.py` line 74):
`int(resp.headers.get("Retry-After", "10"))`. -/
def retryAfterOf (r : Resp) : Nat := r.retryAfterHeader.getD 10

/-- The predicate of `_rate_limit_sleep` (`synch.py` lines 72-78): sleep and
report `true` exactly when the status is 429. -/
def rate_limit_sleep (r : Resp) : Bool := r.status == 429

/-- The retry pattern wrapped around every outbound call
(e.g. `synch.py` lines 153-157):

    r = get(base, params); while _rate_limit_sleep(r): r = get(base, params)

`send p n` is the server's response to the `n`-th issue of the request with
parameters `p`; the loop always re-issues with the same `p`.  `fuel` bounds
the unbounded `while`.  Returns the final (non-429) response, the list of
wait durations slept, and the trace of parameter values issued, or `none`
when `fuel` runs out before a non-429 response arrives. -/
def retryRequest {α : Type} (send : α → Nat → Resp) (p : α)
    (attempt : Nat) (fuel : Nat) : Option (Resp × List Nat × List α) :=
  match fuel with
  | 0 => none
  | fuel + 1 =>
    let r := send p attempt
    if rate_limit_sleep r then
      match retryRequest send p (attempt + 1) fuel with
      | none => none
      | some (final, sleeps, issued) =>
        some (final, retryAfterOf r :: sleeps, p :: issued)
    else
      some (r, [], [p])

/-- A ClickUp list: its id together with its (rate-limit-resolved) paginated
task endpoint. -/
structure CUList where
  id : String
  server : Nat → List Task

/-- A ClickUp folder: its id and the lists returned by
`fetch_lists_from_folder` on it. -/
structure Folder where
  id : String
  lists : List CUList

/-- `synch.py` line 31: the two excluded list ids (FORM and Changelog). -/
def IGNORED_LIST_IDS : List String := ["901212791461", "901212763746"]

/-- Fetch one list's tasks and tag each page request of the trace with the
list's id. -/
def fetchListTagged (lst : CUList) (fuel : Nat) : List Task × List (String × Nat) :=
  let r := fetch_tasks_from_list lst.server fuel
  (r.1, r.2.map (fun p => (lst.id, p)))

/-- The shared inner loop of `fetch_clickup_tasks` (`synch.py` lines
175-181 and 183-189): for each list, skip it if its id is ignored,
otherwise fetch and yield its tasks. -/
def processLists (lists : List CUList) (fuel : Nat) :
    List Task × List (String × Nat) :=
  match lists with
  | [] => ([], [])
  | lst :: rest =>
    let r := processLists rest fuel
    if lst.id ∈ IGNORED_LIST_IDS then r
    else
      let f := fetchListTagged lst fuel
      (f.1 ++ r.1, f.2 ++ r.2)

/-- `fetch_clickup_tasks` (`synch.py` lines 170-189): traverse the folders'
lists, then the folderless lists, skipping ignored lists; yield every task
and record the trace of page requests `(list id, page index)`. -/
def fetch_clickup_tasks (folders : List Folder) (folderless : List CUList)
    (fuel : Nat) : List Task × List (String × Nat) :=
  let fr := processLists (folders.flatMap Folder.lists) fuel
  let lr := processLists folderless fuel
  (fr.1 ++ lr.1, fr.2 ++ lr.2)

/-- An Intercom internal article: destination-assigned id, title, body. -/
structure Article where
  id : Nat
  title : String
  body : String
  deriving Repr, DecidableEq

/-- The Intercom internal-articles store: the existing articles and the next
id the destination will assign. -/
structure Store where
  articles : List Article
  nextId : Nat
  deriving Repr, DecidableEq

def emptyStore : Store := ⟨[], 0⟩

/-- Model of the destination's `internal_articles/search` endpoint: the
articles whose title matches the query exactly, in store order. -/
def searchArticles (st : Store) (query : String) : List Article :=
  st.articles.filter (fun a => a.title = query)

/-- The search transport over a healthy store: never a transport error. -/
def storeSearch (st : Store) : String → Except Unit (List Article) :=
  fun q => .ok (searchArticles st q)

/-- The fallback applied to every task title before use
(`title = task.get("name") or "(Без названия)"`). -/
def taskTitle (t : Task) : String :=
  if t.name = "" then "(Без названия)" else t.name

/-- `synch.py` line 202: the queries tried by `find_existing_article`, the
bare title first, then the title with the bracketed task id appended. -/
def searchQueries (title task_id : String) : List String :=
  [title, title ++ " [" ++ task_id ++ "]"]

/-- The `for query in search_queries` loop of `find_existing_article`
(`synch.py` lines 204-220): a transport error on a query is caught
(`except ... continue`) and the next query is tried; the first query whose
result list is non-empty yields its first article (`articles[0]`). -/
def queriesLoop (search : String → Except Unit (List Article)) :
    List String → Option Article
  | [] => none
  | q :: rest =>
    match search q with
    | .error _ => queriesLoop search rest
    | .ok articles =>
      match articles.head? with
      | some a => some a
      | none => queriesLoop search rest

/-- `find_existing_article` (`synch.py` lines 201-221): run the query loop
over the two queries.  `search` abstracts the (rate-limit-resolved) search
transport, `Except.error` standing for a raised exception. -/
def find_existing_article (search : String → Except Unit (List Article))
    (title task_id : String) : Option Article :=
  queriesLoop search (searchQueries title task_id)

/-- `task_to_html` (`synch.py` lines 192-198): heading from the escaped
name, body from the rendered description (a fixed placeholder when empty),
capped at 50000 characters with a visible truncation marker.  `md` and
`esc` abstract the external `markdown` renderer and `html.escape`. -/
def task_to_html (md esc : String → String) (t : Task) : String :=
  let name := if t.name = "" then "(Без названия)" else t.name
  let desc := t.description
  let body_html := if desc = "" then "<p><em>Нет описания</em></p>" else md desc
  let body_html :=
    if body_html.length > 50000 then
      body_html.take 50000 ++ "<p><em>Описание урезано из-за длины</em></p>"
    else body_html
  "<h1>" ++ esc name ++ "</h1>" ++ body_html

/-- The body placed in a create/update payload (`synch.py` lines 229-231
and 265-267): `task_to_html` output, re-capped at 50000 characters. -/
def payloadBody (md esc : String → String) (t : Task) : String :=
  let h := task_to_html md esc t
  if h.length > 50000 then h.take 50000 else h

/-- A destination write request issued by the upsert path. -/
inductive WriteReq where
  | create (title body : String)
  | update (articleId : Nat) (title body : String)
  deriving Repr, DecidableEq

/-- `create_internal_article` (`synch.py` lines 224-257): build the payload
with title `title[:255]` (note: the bare task title, no id suffix) and the
capped body; in dry-run mode no request is issued and nothing changes;
otherwise a POST is issued and the destination assigns the next id.
Returns the new store, the requests issued, and the created id. -/
def create_internal_article (dryRun : Bool) (md esc : String → String)
    (st : Store) (t : Task) : Store × List WriteReq × Option Nat :=
  let title := taskTitle t
  let body := payloadBody md esc t
  if dryRun then (st, [], none)
  else
    let a : Article := ⟨st.nextId, title.take 255, body⟩
    (⟨st.articles ++ [a], st.nextId + 1⟩, [.create (title.take 255) body], some a.id)

/-- `update_internal_article` (`synch.py` lines 260-289): same payload as a
create, PUT against the given article id; in dry-run mode no request is
issued. -/
def update_internal_article (dryRun : Bool) (md esc : String → String)
    (st : Store) (article_id : Nat) (t : Task) : Store × List WriteReq :=
  let title := taskTitle t
  let body := payloadBody md esc t
  if dryRun then (st, [])
  else
    (⟨st.articles.map (fun a =>
        if a.id = article_id then ⟨a.id, title.take 255, body⟩ else a),
      st.nextId⟩,
     [.update article_id (title.take 255) body])

/-- `upsert_internal_article` (`synch.py` lines 292-298): look the task up
by title via `find_existing_article`; update the found article, else
create.  `search` abstracts the search transport (so that transport
failures are representable); writes go against `st`. -/
def upsert_internal_article (dryRun : Bool) (md esc : String → String)
    (search : String → Except Unit (List Article))
    (st : Store) (t : Task) : Store × List WriteReq :=
  let title := taskTitle t
  match find_existing_article search title t.id with
  | some existing => update_internal_article dryRun md esc st existing.id t
  | none =>
    let r := create_internal_article dryRun md esc st t
    (r.1, r.2.1)

/-- One upsert against a healthy destination: the search transport is the
store itself. -/
def upsertStep (dryRun : Bool) (md esc : String → String)
    (st : Store) (t : Task) : Store × List WriteReq :=
  upsert_internal_article dryRun md esc (storeSearch st) st t

/-- The per-record loop of `main` (`synch.py` lines 385-390) restricted to
the destination writes: upsert every fetched task in order, accumulating
the issued requests. -/
def runSync (dryRun : Bool) (md esc : String → String)
    (st : Store) (tasks : List Task) : Store × List WriteReq :=
  match tasks with
  | [] => (st, [])
  | t :: rest =>
    let r := upsertStep dryRun md esc st t
    let r2 := runSync dryRun md esc r.1 rest
    (r2.1, r.2 ++ r2.2)

/-- The persisted sync state (`.sync_state.json`): the dictionary with the
optional `last_sync_iso` entry, its timestamp modelled as an integer. -/
structure SyncState where
  last_sync_iso : Option Int
  deriving Repr, DecidableEq

/-- `_load_state` (`synch.py` lines 62-66).  The file system and `json.load`
are modelled by `file`: `none` when the state file is absent, `some (.ok s)`
when it parses, `some (.error e)` when `json.load` raises.  An absent file
yields the empty dictionary; a parse failure propagates, since
`_load_state` has no exception handler. -/
def _load_state (file : Option (Except Unit SyncState)) : Except Unit SyncState :=
  match file with
  | none => .ok ⟨none⟩
  | some (.ok s) => .ok s
  | some (.error e) => .error e

/-- The watermark computation of `main` (`synch.py` lines 370-374):
the checkpoint timestamp when present and `FETCH_ALL` is unset, otherwise
`now - timedelta(hours=LOOKBACK_HOURS)` (times in seconds). -/
def effectiveWatermark (state : SyncState) (fetchAll : Bool)
    (now lookbackHours : Int) : Int :=
  match state.last_sync_iso, fetchAll with
  | some ts, false => ts
  | _, _ => now - lookbackHours * 3600

/-- The observable outcome of a `main` run: the state written by
`_save_state` (`none` when the run never saved) and the count of
successfully synced tasks. -/
structure MainOutcome where
  savedState : Option SyncState
  count : Nat
  deriving Repr, DecidableEq

/-- `main` (`synch.py` lines 361-396), with its effects made explicit.
`deleteMode`/`cleanupDuplicates` are the mode flags (their branches return
before the sync path); `file` feeds `_load_state` (whose parse failure
propagates and aborts the run unsaved); `setupOk` is the outcome of
`check_team_access` (on failure `main` logs and returns without saving);
`tasks` are the tasks yielded by `fetch_clickup_tasks` before a possible
fetch error (a fetch error is caught, so it only truncates the stream);
`upsertOk t` tells whether the per-task upsert ran without an exception
(a per-task exception is caught and only skips the count increment).
After the loop the state is updated with `now` and always saved. -/
def mainRun (deleteMode cleanupDuplicates fetchAll : Bool)
    (file : Option (Except Unit SyncState)) (now lookbackHours : Int)
    (setupOk : Bool) (tasks : List Task) (upsertOk : Task → Bool) :
    Except Unit MainOutcome :=
  if deleteMode then .ok ⟨none, 0⟩
  else if cleanupDuplicates then .ok ⟨none, 0⟩
  else
    match _load_state file with
    | .error e => .error e
    | .ok state =>
      let _updated_after := effectiveWatermark state fetchAll now lookbackHours
      if setupOk then
        let count := (tasks.filter upsertOk).length
        .ok ⟨some { state with last_sync_iso := some now }, count⟩
      else .ok ⟨none, 0⟩

/-- The second query `f"{title} [{task_id}]"` of `find_existing_article`,
for a given task. -/
def suffixedQ (t : Task) : String := taskTitle t ++ " [" ++ t.id ++ "]"

/-- Well-formedness of the destination store: article ids are distinct and
below the next id the destination will assign. -/
def Store.WF (st : Store) : Prop :=
  (st.articles.map Article.id).Nodup ∧ ∀ a ∈ st.articles, a.id < st.nextId



set_option maxRecDepth 100000

/-! ### Helper lemmas -/

/-- `String.take` is the identity when the string already fits. -/
theorem take_of_length_le (s : String) (n : Nat) (h : s.length ≤ n) :
    s.take n = s := by
  rw [String.take_eq]
  cases s with
  | mk data =>
    simp only [String.length] at h
    simp [List.take_of_length_le h]

theorem mem_searchArticles {st : Store} {q : String} {a : Article} :
    a ∈ searchArticles st q ↔ a ∈ st.articles ∧ a.title = q := by
  simp [searchArticles, List.mem_filter]

theorem head?_searchArticles {st : Store} {q : String} {a : Article}
    (h : (searchArticles st q).head? = some a) :
    a ∈ st.articles ∧ a.title = q := by
  apply mem_searchArticles.1
  cases hl : searchArticles st q with
  | nil => rw [hl] at h; simp at h
  | cons x xs =>
    rw [hl] at h
    simp only [List.head?_cons, Option.some.injEq] at h
    rw [← h]
    exact List.mem_cons_self x xs

theorem head?_of_exists_title {st : Store} {q : String}
    (h : ∃ a ∈ st.articles, a.title = q) :
    ∃ a, (searchArticles st q).head? = some a := by
  obtain ⟨a, ha, ht⟩ := h
  have : a ∈ searchArticles st q := mem_searchArticles.2 ⟨ha, ht⟩
  cases hl : searchArticles st q with
  | nil => rw [hl] at this; simp at this
  | cons x xs => exact ⟨x, by simp⟩

/-- Scenario: the first query already finds an article. -/
theorem upsertStep_found1 {md esc : String → String} {st : Store} {t : Task}
    {a : Article} (h : (searchArticles st (taskTitle t)).head? = some a) :
    upsertStep false md esc st t = update_internal_article false md esc st a.id t := by
  simp [upsertStep, upsert_internal_article, find_existing_article, searchQueries,
    queriesLoop, storeSearch, h]

/-- Scenario: only the id-suffixed query finds an article. -/
theorem upsertStep_found2 {md esc : String → String} {st : Store} {t : Task}
    {a : Article} (h1 : (searchArticles st (taskTitle t)).head? = none)
    (h2 : (searchArticles st (suffixedQ t)).head? = some a) :
    upsertStep false md esc st t = update_internal_article false md esc st a.id t := by
  have h2' : (searchArticles st (taskTitle t ++ " [" ++ t.id ++ "]")).head? = some a := h2
  simp [upsertStep, upsert_internal_article, find_existing_article, searchQueries,
    queriesLoop, storeSearch, h1, h2']

/-- Scenario: neither query finds an article; a create is issued. -/
theorem upsertStep_notfound {md esc : String → String} {st : Store} {t : Task}
    (h1 : (searchArticles st (taskTitle t)).head? = none)
    (h2 : (searchArticles st (suffixedQ t)).head? = none) :
    upsertStep false md esc st t =
      (⟨st.articles ++ [⟨st.nextId, (taskTitle t).take 255, payloadBody md esc t⟩],
        st.nextId + 1⟩,
       [.create ((taskTitle t).take 255) (payloadBody md esc t)]) := by
  have h2' : (searchArticles st (taskTitle t ++ " [" ++ t.id ++ "]")).head? = none := h2
  simp [upsertStep, upsert_internal_article, find_existing_article, searchQueries,
    queriesLoop, storeSearch, h1, h2', create_internal_article]


set_option maxRecDepth 100000

theorem update_articles_eq (md esc : String → String) (st : Store) (i : Nat) (t : Task) :
    (update_internal_article false md esc st i t).1.articles =
      st.articles.map (fun a =>
        if a.id = i then ⟨a.id, (taskTitle t).take 255, payloadBody md esc t⟩ else a) := rfl

theorem update_trace_eq (md esc : String → String) (st : Store) (i : Nat) (t : Task) :
    (update_internal_article false md esc st i t).2 =
      [.update i ((taskTitle t).take 255) (payloadBody md esc t)] := rfl

theorem update_nextId_eq (md esc : String → String) (st : Store) (i : Nat) (t : Task) :
    (update_internal_article false md esc st i t).1.nextId = st.nextId := rfl

theorem create_articles_eq (md esc : String → String) (st : Store) (t : Task) :
    (create_internal_article false md esc st t).1.articles =
      st.articles ++ [⟨st.nextId, (taskTitle t).take 255, payloadBody md esc t⟩] := rfl

theorem create_trace_eq (md esc : String → String) (st : Store) (t : Task) :
    (create_internal_article false md esc st t).2.1 =
      [.create ((taskTitle t).take 255) (payloadBody md esc t)] := rfl

theorem create_nextId_eq (md esc : String → String) (st : Store) (t : Task) :
    (create_internal_article false md esc st t).1.nextId = st.nextId + 1 := rfl

theorem create_result_eq (md esc : String → String) (st : Store) (t : Task) :
    (create_internal_article false md esc st t).2.2 = some st.nextId := rfl

theorem wf_update {st : Store} (w : st.WF) (md esc : String → String) (i : Nat) (t : Task) :
    (update_internal_article false md esc st i t).1.WF := by
  obtain ⟨hnd, hlt⟩ := w
  constructor
  · rw [update_articles_eq, List.map_map]
    have : st.articles.map ((fun a => a.id) ∘ (fun a =>
        if a.id = i then (⟨a.id, (taskTitle t).take 255, payloadBody md esc t⟩ : Article) else a)) =
        st.articles.map Article.id := by
      apply List.map_congr_left
      intro a _
      by_cases h : a.id = i <;> simp [h]
    rw [this]
    exact hnd
  · intro a ha
    rw [update_nextId_eq]
    rw [update_articles_eq] at ha
    obtain ⟨b, hb, hba⟩ := List.mem_map.1 ha
    have hblt := hlt b hb
    by_cases h : b.id = i
    · rw [if_pos h] at hba
      rw [← hba]
      exact hblt
    · rw [if_neg h] at hba
      rw [← hba]
      exact hblt

theorem wf_create {st : Store} (w : st.WF) (md esc : String → String) (t : Task) :
    (create_internal_article false md esc st t).1.WF := by
  obtain ⟨hnd, hlt⟩ := w
  constructor
  · rw [create_articles_eq, List.map_append]
    rw [List.nodup_append]
    refine ⟨hnd, List.nodup_singleton _, ?_⟩
    intro x hx hx'
    simp only [List.map_cons, List.map_nil, List.mem_singleton] at hx'
    obtain ⟨b, hb, hbx⟩ := List.mem_map.1 hx
    have := hlt b hb
    have hx2 : x = st.nextId := hx'
    rw [hx2] at hbx
    omega
  · intro a ha
    rw [create_nextId_eq]
    rw [create_articles_eq] at ha
    rcases List.mem_append.1 ha with h | h
    · have := hlt a h
      omega
    · rw [List.mem_singleton] at h
      rw [h]
      show st.nextId < st.nextId + 1
      omega



set_option maxRecDepth 2000

theorem title_mk (i : Nat) (s b : String) : (⟨i, s, b⟩ : Article).title = s := rfl

/-- An update of article `a` (found via search) keeps every title alive,
except possibly `a`'s own when the new title differs; when the query is the
new title itself the retitled article witnesses it. -/
theorem exists_title_update {md esc : String → String} {st : Store} {t : Task}
    {a : Article} {q : String}
    (w : st.WF) (hlen : (taskTitle t).length ≤ 255)
    (ha : a ∈ st.articles)
    (hq : q ≠ a.title ∨ q = taskTitle t)
    (hex : ∃ b ∈ st.articles, b.title = q) :
    ∃ b ∈ (update_internal_article false md esc st a.id t).1.articles, b.title = q := by
  obtain ⟨b, hb, hbt⟩ := hex
  rw [update_articles_eq]
  by_cases hid : b.id = a.id
  · have hba : b = a := List.inj_on_of_nodup_map w.1 hb ha hid
    rcases hq with h | h
    · exact absurd (hba ▸ hbt) (fun e => h e.symm)
    · refine ⟨⟨b.id, (taskTitle t).take 255, payloadBody md esc t⟩, ?_, ?_⟩
      · exact List.mem_map.2 ⟨b, hb, by simp [hid]⟩
      · rw [title_mk, take_of_length_le _ _ hlen]
        exact h.symm
  · refine ⟨b, ?_, hbt⟩
    exact List.mem_map.2 ⟨b, hb, by simp [hid]⟩

/-- After an update of a found article, the task's own title is present. -/
theorem exists_title_update_self {md esc : String → String} {st : Store} {t : Task}
    {a : Article} (hlen : (taskTitle t).length ≤ 255) (ha : a ∈ st.articles) :
    ∃ b ∈ (update_internal_article false md esc st a.id t).1.articles,
      b.title = taskTitle t := by
  rw [update_articles_eq]
  refine ⟨⟨a.id, (taskTitle t).take 255, payloadBody md esc t⟩, ?_, ?_⟩
  · exact List.mem_map.2 ⟨a, ha, by simp⟩
  · rw [title_mk]
    exact take_of_length_le _ _ hlen

/-- One upsert step preserves well-formedness of the store. -/
theorem upsertStep_wf {md esc : String → String} {st : Store} {t : Task}
    (w : st.WF) : (upsertStep false md esc st t).1.WF := by
  cases h1 : (searchArticles st (taskTitle t)).head? with
  | some a => rw [upsertStep_found1 h1]; exact wf_update w md esc a.id t
  | none =>
    cases h2 : (searchArticles st (suffixedQ t)).head? with
    | some a => rw [upsertStep_found2 h1 h2]; exact wf_update w md esc a.id t
    | none =>
      rw [upsertStep_notfound h1 h2]
      have := wf_create w md esc t
      rwa [show (create_internal_article false md esc st t).1 =
        ⟨st.articles ++ [⟨st.nextId, (taskTitle t).take 255, payloadBody md esc t⟩],
          st.nextId + 1⟩ from rfl] at this

/-- One upsert step keeps every already-present title findable, except
possibly the id-suffixed query string of the processed task. -/
theorem upsertStep_preserves {md esc : String → String} {st : Store} {t : Task}
    {q : String} (w : st.WF) (hlen : (taskTitle t).length ≤ 255)
    (hq : q ≠ suffixedQ t)
    (hex : ∃ b ∈ st.articles, b.title = q) :
    ∃ b ∈ (upsertStep false md esc st t).1.articles, b.title = q := by
  cases h1 : (searchArticles st (taskTitle t)).head? with
  | some a =>
    rw [upsertStep_found1 h1]
    obtain ⟨ham, hat⟩ := head?_searchArticles h1
    apply exists_title_update w hlen ham _ hex
    by_cases hqt : q = taskTitle t
    · exact Or.inr hqt
    · exact Or.inl (by rw [hat]; exact hqt)
  | none =>
    cases h2 : (searchArticles st (suffixedQ t)).head? with
    | some a =>
      rw [upsertStep_found2 h1 h2]
      obtain ⟨ham, hat⟩ := head?_searchArticles h2
      apply exists_title_update w hlen ham _ hex
      exact Or.inl (by rw [hat]; exact hq)
    | none =>
      rw [upsertStep_notfound h1 h2]
      obtain ⟨b, hb, hbt⟩ := hex
      exact ⟨b, List.mem_append_left _ hb, hbt⟩

/-- After one upsert step the processed task's title is findable. -/
theorem upsertStep_establishes {md esc : String → String} {st : Store} {t : Task}
    (hlen : (taskTitle t).length ≤ 255) :
    ∃ b ∈ (upsertStep false md esc st t).1.articles, b.title = taskTitle t := by
  cases h1 : (searchArticles st (taskTitle t)).head? with
  | some a =>
    rw [upsertStep_found1 h1]
    exact exists_title_update_self hlen (head?_searchArticles h1).1
  | none =>
    cases h2 : (searchArticles st (suffixedQ t)).head? with
    | some a =>
      rw [upsertStep_found2 h1 h2]
      exact exists_title_update_self hlen (head?_searchArticles h2).1
    | none =>
      rw [upsertStep_notfound h1 h2]
      refine ⟨⟨st.nextId, (taskTitle t).take 255, payloadBody md esc t⟩, ?_, ?_⟩
      · exact List.mem_append_right _ (List.mem_singleton.2 rfl)
      · rw [title_mk]
        exact take_of_length_le _ _ hlen

/-- When the bare title is already findable, an upsert step issues no
create and leaves the number of documents unchanged. -/
theorem upsertStep_found_no_create {md esc : String → String} {st : Store} {t : Task}
    (hfound : ∃ b ∈ st.articles, b.title = taskTitle t) :
    (upsertStep false md esc st t).1.articles.length = st.articles.length ∧
    ∀ ti bo, WriteReq.create ti bo ∉ (upsertStep false md esc st t).2 := by
  obtain ⟨a, ha⟩ := head?_of_exists_title hfound
  rw [upsertStep_found1 ha]
  constructor
  · rw [update_articles_eq, List.length_map]
  · intro ti bo
    rw [update_trace_eq]
    simp



set_option maxRecDepth 2000

theorem runSync_cons (md esc : String → String) (st : Store) (t : Task) (rest : List Task) :
    runSync false md esc st (t :: rest) =
      ((runSync false md esc (upsertStep false md esc st t).1 rest).1,
       (upsertStep false md esc st t).2 ++
         (runSync false md esc (upsertStep false md esc st t).1 rest).2) := rfl

/-- Through a whole pass, well-formedness is kept, titles other than the
processed tasks' id-suffixed queries stay findable, and every processed
task's title becomes findable. -/
theorem runSync_inv (md esc : String → String) :
    ∀ (tasks : List Task) (st : Store), st.WF →
    (∀ t ∈ tasks, (taskTitle t).length ≤ 255) →
    (runSync false md esc st tasks).1.WF ∧
    (∀ q, (∀ t ∈ tasks, q ≠ suffixedQ t) → (∃ b ∈ st.articles, b.title = q) →
      ∃ b ∈ (runSync false md esc st tasks).1.articles, b.title = q) ∧
    (∀ u ∈ tasks, (∀ t ∈ tasks, taskTitle u ≠ suffixedQ t) →
      ∃ b ∈ (runSync false md esc st tasks).1.articles, b.title = taskTitle u) := by
  intro tasks
  induction tasks with
  | nil =>
    intro st w _
    refine ⟨w, ?_, ?_⟩
    · intro q _ hex
      exact hex
    · intro u hu
      exact absurd hu (List.not_mem_nil u)
  | cons t rest ih =>
    intro st w hlen
    have hlent : (taskTitle t).length ≤ 255 := hlen t (List.mem_cons_self t rest)
    have hlenr : ∀ u ∈ rest, (taskTitle u).length ≤ 255 :=
      fun u hu => hlen u (List.mem_cons_of_mem t hu)
    have w1 : (upsertStep false md esc st t).1.WF := upsertStep_wf w
    obtain ⟨ihwf, ihpres, ihest⟩ := ih (upsertStep false md esc st t).1 w1 hlenr
    rw [runSync_cons]
    refine ⟨ihwf, ?_, ?_⟩
    · intro q hq hex
      apply ihpres q (fun u hu => hq u (List.mem_cons_of_mem t hu))
      exact upsertStep_preserves w hlent (hq t (List.mem_cons_self t rest)) hex
    · intro u hu hns
      rcases List.mem_cons.1 hu with rfl | hur
      · apply ihpres (taskTitle u) (fun v hv => hns v (List.mem_cons_of_mem u hv))
        exact upsertStep_establishes hlent
      · exact ihest u hur (fun v hv => hns v (List.mem_cons_of_mem t hv))

/-- A pass over tasks whose titles are all findable issues no create and
adds no document. -/
theorem runSync_no_create (md esc : String → String) :
    ∀ (tasks : List Task) (st : Store), st.WF →
    (∀ t ∈ tasks, (taskTitle t).length ≤ 255) →
    (∀ u ∈ tasks, ∀ t ∈ tasks, taskTitle u ≠ suffixedQ t) →
    (∀ u ∈ tasks, ∃ b ∈ st.articles, b.title = taskTitle u) →
    (runSync false md esc st tasks).1.articles.length = st.articles.length ∧
    ∀ ti bo, WriteReq.create ti bo ∉ (runSync false md esc st tasks).2 := by
  intro tasks
  induction tasks with
  | nil =>
    intro st _ _ _ _
    exact ⟨rfl, fun ti bo h => absurd h (List.not_mem_nil _)⟩
  | cons t rest ih =>
    intro st w hlen hns hfound
    have hlent : (taskTitle t).length ≤ 255 := hlen t (List.mem_cons_self t rest)
    have hfoundt := hfound t (List.mem_cons_self t rest)
    have hstep := @upsertStep_found_no_create md esc st t hfoundt
    have w1 : (upsertStep false md esc st t).1.WF := upsertStep_wf w
    have hfound1 : ∀ u ∈ rest, ∃ b ∈ (upsertStep false md esc st t).1.articles,
        b.title = taskTitle u := by
      intro u hu
      apply upsertStep_preserves w hlent
      · exact hns u (List.mem_cons_of_mem t hu) t (List.mem_cons_self t rest)
      · exact hfound u (List.mem_cons_of_mem t hu)
    obtain ⟨ihlen, ihnc⟩ := ih (upsertStep false md esc st t).1 w1
      (fun u hu => hlen u (List.mem_cons_of_mem t hu))
      (fun u hu v hv => hns u (List.mem_cons_of_mem t hu) v (List.mem_cons_of_mem t hv))
      hfound1
    rw [runSync_cons]
    constructor
    · rw [ihlen, hstep.1]
    · intro ti bo h
      rcases List.mem_append.1 h with h1 | h2
      · exact hstep.2 ti bo h1
      · exact ihnc ti bo h2



set_option maxRecDepth 2000

theorem numPages_zero (P : Nat) (hP : 0 < P) : numPages 0 P = 0 := by
  unfold numPages
  exact Nat.div_eq_of_lt (by omega)

theorem numPages_succ (N P : Nat) (hN : 1 ≤ N) (hP : 0 < P) :
    numPages N P = numPages (N - P) P + 1 := by
  unfold numPages
  rcases le_or_lt P N with h | h
  · have e : N - P + P - 1 = N - P + (P - 1) := by omega
    have e2 : N + P - 1 = (N - P + (P - 1)) + P := by omega
    rw [e, e2, Nat.add_div_right _ hP]
  · have e : N - P = 0 := by omega
    rw [e]
    have e2 : N + P - 1 = (N - 1) + P := by omega
    have e3 : 0 + P - 1 = P - 1 := by omega
    rw [e2, e3, Nat.add_div_right _ hP, Nat.div_eq_of_lt (by omega : N - 1 < P),
      Nat.div_eq_of_lt (by omega : P - 1 < P)]

theorem pagesOf_succ (l : List Task) (P i : Nat) :
    pagesOf l P (i + 1) = pagesOf (l.drop P) P i := by
  unfold pagesOf
  rw [List.drop_drop]
  congr 2
  ring

theorem fetchLoop_shift (server : Nat → List Task) :
    ∀ (fuel p : Nat),
      fetchTasksLoop server (p + 1) fuel =
        ((fetchTasksLoop (fun i => server (i + 1)) p fuel).1,
         (fetchTasksLoop (fun i => server (i + 1)) p fuel).2.map (· + 1)) := by
  intro fuel
  induction fuel with
  | zero => intro p; rfl
  | succ fuel ih =>
    intro p
    show (if (server (p + 1)).isEmpty then _ else _) = _
    by_cases h : (server (p + 1)).isEmpty
    · simp only [fetchTasksLoop, h, if_true, List.map_cons, List.map_nil]
    · simp only [fetchTasksLoop, h, if_false, Bool.false_eq_true, ih (p + 1),
        List.map_cons]


set_option maxRecDepth 2000

theorem fetchLoop_pagesOf :
    ∀ (fuel : Nat) (l : List Task) (P : Nat), 0 < P → l.length + P ≤ fuel * P →
      fetchTasksLoop (pagesOf l P) 0 fuel =
        (l.map applyDescFallback, List.range (numPages l.length P + 1)) := by
  intro fuel
  induction fuel with
  | zero =>
    intro l P hP hle
    rw [Nat.zero_mul] at hle
    omega
  | succ fuel ih =>
    intro l P hP hle
    have hpage0 : pagesOf l P 0 = l.take P := by
      unfold pagesOf
      rw [Nat.zero_mul, List.drop_zero]
    by_cases hne : l = []
    · subst hne
      show (if (pagesOf ([] : List Task) P 0).isEmpty then _ else _) = _
      rw [hpage0]
      simp only [List.take_nil, List.isEmpty_nil, if_true, List.map_nil,
        List.length_nil, numPages_zero P hP]
      rfl
    · have hbatch : (pagesOf l P 0).isEmpty = false := by
        rw [hpage0, List.isEmpty_eq_false, Ne, List.take_eq_nil_iff]
        push_neg
        exact ⟨by omega, hne⟩
      have hN1 : 1 ≤ l.length := by
        rcases l with _ | ⟨x, xs⟩
        · exact absurd rfl hne
        · simp
      have hfuel : 1 ≤ fuel := by
        rcases Nat.eq_zero_or_pos fuel with h0 | h1
        · subst h0
          rw [Nat.one_mul] at hle
          omega
        · exact h1
      have hle2 : l.length ≤ fuel * P := by
        have e : (fuel + 1) * P = fuel * P + P := Nat.succ_mul fuel P
        omega
      have hPle : P ≤ fuel * P := by
        have := Nat.mul_le_mul_right P hfuel
        rwa [Nat.one_mul] at this
      have hdroplen : (l.drop P).length = l.length - P := List.length_drop P l
      have hle3 : (l.drop P).length + P ≤ fuel * P := by omega
      have hrec := ih (l.drop P) P hP hle3
      have hfun : (fun i => pagesOf l P (i + 1)) = pagesOf (l.drop P) P :=
        funext fun i => pagesOf_succ l P i
      have hshift := fetchLoop_shift (pagesOf l P) fuel 0
      rw [hfun] at hshift
      show (if (pagesOf l P 0).isEmpty then _ else _) = _
      rw [hbatch]
      simp only [Bool.false_eq_true, if_false]
      rw [hshift, hrec]
      have hrange : List.range (numPages l.length P + 1) =
          0 :: (List.range (numPages (l.length - P) P + 1)).map (· + 1) := by
        rw [numPages_succ l.length P hN1 hP, List.range_succ_eq_map]
      rw [hpage0, hdroplen, hrange]
      simp only [← List.map_append, List.take_append_drop]



set_option maxRecDepth 100000

/-- Claim C1 (counterexample): a record whose document is found by the
existence check does trigger a destination write — the issued request list
is not empty (it is an update), refuting "no destination write occurs". -/
theorem claimC1_counterexample :
    find_existing_article (storeSearch ⟨[⟨0, "A", "old"⟩], 1⟩)
        (taskTitle ⟨"t1", "A", "", ""⟩) "t1" = some ⟨0, "A", "old"⟩ ∧
    (upsertStep false (fun s => s) (fun s => s) ⟨[⟨0, "A", "old"⟩], 1⟩
        ⟨"t1", "A", "", ""⟩).2 ≠ [] := by decide

/-- Claim C1 (amended): when the existence check finds an article for the
record, the resolver issues no create, but it does issue exactly one
update (PUT) overwriting the found article — the code overwrites rather
than skips. -/
theorem claimC1 (md esc : String → String) (st : Store) (t : Task) (a : Article)
    (h : find_existing_article (storeSearch st) (taskTitle t) t.id = some a) :
    (upsertStep false md esc st t).2 =
      [.update a.id ((taskTitle t).take 255) (payloadBody md esc t)] ∧
    ∀ ti bo, WriteReq.create ti bo ∉ (upsertStep false md esc st t).2 := by
  have e : upsertStep false md esc st t = update_internal_article false md esc st a.id t := by
    simp only [upsertStep, upsert_internal_article, h]
  rw [e, update_trace_eq]
  refine ⟨rfl, ?_⟩
  intro ti bo
  simp

/-- Witness for claim C1 at a concrete store and task. -/
theorem claimC1_witness :
    find_existing_article (storeSearch ⟨[⟨7, "B", "x"⟩], 8⟩)
        (taskTitle ⟨"t9", "B", "", ""⟩) "t9" = some ⟨7, "B", "x"⟩ ∧
    ((upsertStep false (fun s => s) (fun s => s) ⟨[⟨7, "B", "x"⟩], 8⟩
        ⟨"t9", "B", "", ""⟩).2 =
      [.update 7 ((taskTitle ⟨"t9", "B", "", ""⟩).take 255)
        (payloadBody (fun s => s) (fun s => s) ⟨"t9", "B", "", ""⟩)] ∧
    ∀ ti bo, WriteReq.create ti bo ∉
      (upsertStep false (fun s => s) (fun s => s) ⟨[⟨7, "B", "x"⟩], 8⟩
        ⟨"t9", "B", "", ""⟩).2) :=
  ⟨by decide,
   claimC1 (fun s => s) (fun s => s) ⟨[⟨7, "B", "x"⟩], 8⟩ ⟨"t9", "B", "", ""⟩
     ⟨7, "B", "x"⟩ (by decide)⟩

/-- Claim C3 (counterexample): the article created for task id `t1` titled
`A` has title exactly `A`, not `A [t1]` — no id is embedded in the title. -/
theorem claimC3_counterexample :
    ((create_internal_article false (fun s => s) (fun s => s) emptyStore
        ⟨"t1", "A", "", ""⟩).1.articles.map Article.title = ["A"]) ∧
    ("A" : String) ≠ "A [t1]" := by decide

/-- Claim C3 (amended): the document created for a record has title exactly
the record's title truncated to 255 characters, with no embedded id. -/
theorem claimC3 (md esc : String → String) (st : Store) (t : Task) :
    (create_internal_article false md esc st t).1.articles =
      st.articles ++ [⟨st.nextId, (taskTitle t).take 255, payloadBody md esc t⟩] ∧
    (create_internal_article false md esc st t).2.1 =
      [.create ((taskTitle t).take 255) (payloadBody md esc t)] :=
  ⟨create_articles_eq md esc st t, create_trace_eq md esc st t⟩

/-- Claim C5: a response sequence 429, 429, 200 yields exactly one resolved
value (the third response), exactly two waits (the two suggested
durations), and three issued requests all carrying the original
parameters. -/
theorem claimC5 {α : Type} (send : α → Nat → Resp) (p : α)
    (h0 : (send p 0).status = 429) (h1 : (send p 1).status = 429)
    (h2 : (send p 2).status = 200) :
    retryRequest send p 0 3 =
      some (send p 2, [retryAfterOf (send p 0), retryAfterOf (send p 1)], [p, p, p]) := by
  simp [retryRequest, rate_limit_sleep, h0, h1, h2]

/-- Witness for claim C5 at a concrete server. -/
theorem claimC5_witness :
    retryRequest (fun (_ : Unit) n => if n < 2 then ⟨429, some 7⟩ else ⟨200, none⟩)
        () 0 3 = some (⟨200, none⟩, [7, 7], [(), (), ()]) :=
  claimC5 (fun (_ : Unit) n => if n < 2 then ⟨429, some 7⟩ else ⟨200, none⟩)
    () rfl rfl rfl

/-- Claim C6: in a sync run whose state file loads, if the initial access
check succeeds the checkpoint is always saved with the current time, no
matter which per-record upserts failed; if the access check fails, nothing
is saved. -/
theorem claimC6 (fetchAll : Bool) (file : Option (Except Unit SyncState))
    (now lookbackHours : Int) (setupOk : Bool) (tasks : List Task)
    (upsertOk : Task → Bool) (st : SyncState)
    (hload : _load_state file = .ok st) :
    (setupOk = true →
      mainRun false false fetchAll file now lookbackHours setupOk tasks upsertOk =
        .ok ⟨some ⟨some now⟩, (tasks.filter upsertOk).length⟩) ∧
    (setupOk = false →
      mainRun false false fetchAll file now lookbackHours setupOk tasks upsertOk =
        .ok ⟨none, 0⟩) := by
  constructor <;> intro hs <;> subst hs <;> simp [mainRun, hload]

/-- Witness for claim C6: a run where the single task's upsert fails still
saves the checkpoint; a run with a failed access check saves nothing. -/
theorem claimC6_witness :
    mainRun false false false none 100 24 true [⟨"1", "T", "", ""⟩]
        (fun _ => false) = .ok ⟨some ⟨some 100⟩, 0⟩ ∧
    mainRun false false false none 100 24 false [⟨"1", "T", "", ""⟩]
        (fun _ => false) = .ok ⟨none, 0⟩ :=
  ⟨(claimC6 false none 100 24 true [⟨"1", "T", "", ""⟩] (fun _ => false)
      ⟨none⟩ rfl).1 rfl,
   (claimC6 false none 100 24 false [⟨"1", "T", "", ""⟩] (fun _ => false)
      ⟨none⟩ rfl).2 rfl⟩

/-- Claim C7 (counterexample): a present-but-malformed state file makes
`_load_state` raise (propagate the parse error), not return the empty
state. -/
theorem claimC7_counterexample :
    _load_state (some (.error ())) = .error () := rfl

/-- Claim C7 (amended): an absent state file loads as the empty state and
the watermark falls back to now minus the lookback window; a present
well-formed checkpoint with the full-rescan flag unset is used as the
watermark; a malformed state file raises instead of loading as none. -/
theorem claimC7 (ts now lookbackHours : Int) (fetchAll : Bool) (e : Unit) :
    _load_state none = .ok ⟨none⟩ ∧
    effectiveWatermark ⟨none⟩ fetchAll now lookbackHours =
      now - lookbackHours * 3600 ∧
    effectiveWatermark ⟨some ts⟩ false now lookbackHours = ts ∧
    _load_state (some (.error e)) = .error e := by
  refine ⟨rfl, ?_, rfl, rfl⟩
  cases fetchAll <;> rfl

/-- Every entry of the page-request trace of `processLists` names a
non-ignored list. -/
theorem processLists_trace (lists : List CUList) (fuel : Nat) :
    ∀ e ∈ (processLists lists fuel).2, e.1 ∉ IGNORED_LIST_IDS := by
  induction lists with
  | nil =>
    intro e he
    simp [processLists] at he
  | cons lst rest ih =>
    intro e he
    simp only [processLists] at he
    by_cases h : lst.id ∈ IGNORED_LIST_IDS
    · rw [if_pos h] at he
      exact ih e he
    · rw [if_neg h] at he
      rcases List.mem_append.1 he with h1 | h2
      · obtain ⟨p, _, hpe⟩ := List.mem_map.1 h1
        rw [← hpe]
        exact h
      · exact ih e h2

/-- Claim C8: no page request is ever issued against a collection whose id
is on the exclusion list. -/
theorem claimC8 (folders : List Folder) (folderless : List CUList) (fuel : Nat)
    (lid : String) (page : Nat) (h : lid ∈ IGNORED_LIST_IDS) :
    (lid, page) ∉ (fetch_clickup_tasks folders folderless fuel).2 := by
  intro hmem
  have hsplit : (lid, page) ∈ (processLists (folders.flatMap Folder.lists) fuel).2 ∨
      (lid, page) ∈ (processLists folderless fuel).2 := by
    have : (lid, page) ∈ (processLists (folders.flatMap Folder.lists) fuel).2 ++
        (processLists folderless fuel).2 := hmem
    exact List.mem_append.1 this
  rcases hsplit with h1 | h1
  · exact processLists_trace _ _ _ h1 h
  · exact processLists_trace _ _ _ h1 h

/-- Witness for claim C8 at a concrete hierarchy containing an ignored
list. -/
theorem claimC8_witness :
    ("901212791461", 0) ∉
      (fetch_clickup_tasks
        [⟨"f", [⟨"901212791461", fun _ => []⟩, ⟨"L", fun _ => []⟩]⟩] [] 1).2 :=
  claimC8 [⟨"f", [⟨"901212791461", fun _ => []⟩, ⟨"L", fun _ => []⟩]⟩] [] 1
    "901212791461" 0 (by decide)



set_option maxRecDepth 100000

/-- Claim C2: running the sync pass twice over the same tasks (well-formed
store, titles within the 255-character cap, no task title colliding with
another task's id-suffixed query) leaves every first-run document findable,
adds no document on the second run, and issues no create on the second
run. -/
theorem claimC2 (md esc : String → String) (st0 : Store) (tasks : List Task)
    (h_wf : st0.WF)
    (h_len : ∀ t ∈ tasks, (taskTitle t).length ≤ 255)
    (h_ns : ∀ u ∈ tasks, ∀ t ∈ tasks, taskTitle u ≠ suffixedQ t) :
    (∀ u ∈ tasks, ∃ b ∈ (runSync false md esc st0 tasks).1.articles,
      b.title = taskTitle u) ∧
    (runSync false md esc (runSync false md esc st0 tasks).1 tasks).1.articles.length =
      (runSync false md esc st0 tasks).1.articles.length ∧
    ∀ ti bo, WriteReq.create ti bo ∉
      (runSync false md esc (runSync false md esc st0 tasks).1 tasks).2 := by
  obtain ⟨hwf1, _, hest⟩ := runSync_inv md esc tasks st0 h_wf h_len
  have hfound : ∀ u ∈ tasks, ∃ b ∈ (runSync false md esc st0 tasks).1.articles,
      b.title = taskTitle u :=
    fun u hu => hest u hu (h_ns u hu)
  obtain ⟨hlen2, hnc⟩ := runSync_no_create md esc tasks
    (runSync false md esc st0 tasks).1 hwf1 h_len h_ns hfound
  exact ⟨hfound, hlen2, hnc⟩

/-- Witness for claim C2 at two concrete tasks over the empty store. -/
theorem claimC2_witness :
    (∀ u ∈ [(⟨"1", "A", "", ""⟩ : Task), ⟨"2", "B", "", ""⟩],
      ∃ b ∈ (runSync false (fun s => s) (fun s => s) emptyStore
          [⟨"1", "A", "", ""⟩, ⟨"2", "B", "", ""⟩]).1.articles,
        b.title = taskTitle u) ∧
    (runSync false (fun s => s) (fun s => s)
        (runSync false (fun s => s) (fun s => s) emptyStore
          [⟨"1", "A", "", ""⟩, ⟨"2", "B", "", ""⟩]).1
        [⟨"1", "A", "", ""⟩, ⟨"2", "B", "", ""⟩]).1.articles.length =
      (runSync false (fun s => s) (fun s => s) emptyStore
        [⟨"1", "A", "", ""⟩, ⟨"2", "B", "", ""⟩]).1.articles.length ∧
    ∀ ti bo, WriteReq.create ti bo ∉
      (runSync false (fun s => s) (fun s => s)
        (runSync false (fun s => s) (fun s => s) emptyStore
          [⟨"1", "A", "", ""⟩, ⟨"2", "B", "", ""⟩]).1
        [⟨"1", "A", "", ""⟩, ⟨"2", "B", "", ""⟩]).2 :=
  claimC2 (fun s => s) (fun s => s) emptyStore
    [⟨"1", "A", "", ""⟩, ⟨"2", "B", "", ""⟩]
    (by unfold Store.WF; decide) (by decide) (by decide)

/-- A page is empty exactly when the collection is exhausted before it. -/
theorem pagesOf_eq_nil_iff {l : List Task} {P i : Nat} (hP : 0 < P) :
    pagesOf l P i = [] ↔ l.length ≤ i * P := by
  unfold pagesOf
  rw [List.take_eq_nil_iff, List.drop_eq_nil_iff]
  constructor
  · rintro (h | h)
    · omega
    · exact h
  · exact fun h => Or.inr h

/-- The page at index `numPages` is past the end of the collection. -/
theorem le_numPages_mul (N P : Nat) (hP : 0 < P) : N ≤ numPages N P * P := by
  unfold numPages
  have h := Nat.lt_div_mul_add (a := N + P - 1) hP
  omega

/-- Pages before `numPages` lie inside the collection. -/
theorem mul_lt_of_lt_numPages {N P i : Nat} (hP : 0 < P)
    (hi : i < numPages N P) : i * P < N := by
  rcases Nat.eq_zero_or_pos N with rfl | hN
  · rw [numPages_zero P hP] at hi
    omega
  · unfold numPages at hi
    have h1 : i + 1 ≤ (N + P - 1) / P := hi
    have h2 : (i + 1) * P ≤ (N + P - 1) / P * P := Nat.mul_le_mul_right P h1
    have h3 : (N + P - 1) / P * P ≤ N + P - 1 := Nat.div_mul_le_self _ _
    rw [Nat.succ_mul] at h2
    omega

/-- Claim C4: over a collection of `N` records split into pages of size
`P`, one pass of the page loop yields exactly the `N` records in order
(each once, with the description fallback applied), requests the
monotonically increasing pages `0, 1, ..., ⌈N/P⌉`, and stops exactly at
the first empty page (`⌈N/P⌉` is empty, all earlier pages are not). -/
theorem claimC4 (l : List Task) (P : Nat) (hP : 0 < P) :
    fetch_tasks_from_list (pagesOf l P) (l.length + 1) =
      (l.map applyDescFallback, List.range (numPages l.length P + 1)) ∧
    pagesOf l P (numPages l.length P) = [] ∧
    ∀ i < numPages l.length P, pagesOf l P i ≠ [] := by
  refine ⟨?_, ?_, ?_⟩
  · unfold fetch_tasks_from_list
    apply fetchLoop_pagesOf (l.length + 1) l P hP
    have h := Nat.le_mul_of_pos_right l.length hP
    rw [Nat.succ_mul]
    omega
  · rw [pagesOf_eq_nil_iff hP]
    exact le_numPages_mul l.length P hP
  · intro i hi
    rw [Ne, pagesOf_eq_nil_iff hP]
    have := mul_lt_of_lt_numPages hP hi
    omega

/-- Witness for claim C4: three records in pages of two. -/
theorem claimC4_witness :
    (fetch_tasks_from_list
        (pagesOf [⟨"1", "A", "", ""⟩, ⟨"2", "B", "", ""⟩, ⟨"3", "C", "", ""⟩] 2) 4 =
      ([⟨"1", "A", "", ""⟩, ⟨"2", "B", "", ""⟩, ⟨"3", "C", "", ""⟩].map applyDescFallback,
       List.range (numPages 3 2 + 1)) ∧
    pagesOf [⟨"1", "A", "", ""⟩, ⟨"2", "B", "", ""⟩, ⟨"3", "C", "", ""⟩] 2 (numPages 3 2) = [] ∧
    ∀ i < numPages 3 2,
      pagesOf [⟨"1", "A", "", ""⟩, ⟨"2", "B", "", ""⟩, ⟨"3", "C", "", ""⟩] 2 i ≠ []) :=
  claimC4 [⟨"1", "A", "", ""⟩, ⟨"2", "B", "", ""⟩, ⟨"3", "C", "", ""⟩] 2 (by decide)

/-- Claim C9: the existence check queries the bare title before the
id-suffixed title; hence two distinct records with equal titles map to the
same target document: the first run creates document 0, the second record
updates that same document 0, and the store ends with the single document
holding the second record's content. -/
theorem claimC9 (md esc : String → String) (t1 t2 : Task)
    (h_id : t1.id ≠ t2.id) (h_t : taskTitle t1 = taskTitle t2)
    (h_len : (taskTitle t1).length ≤ 255) :
    searchQueries (taskTitle t2) t2.id =
      [taskTitle t2, taskTitle t2 ++ " [" ++ t2.id ++ "]"] ∧
    (upsertStep false md esc emptyStore t1).2 =
      [.create ((taskTitle t1).take 255) (payloadBody md esc t1)] ∧
    (upsertStep false md esc (upsertStep false md esc emptyStore t1).1 t2).2 =
      [.update 0 ((taskTitle t2).take 255) (payloadBody md esc t2)] ∧
    (upsertStep false md esc (upsertStep false md esc emptyStore t1).1 t2).1.articles =
      [⟨0, (taskTitle t2).take 255, payloadBody md esc t2⟩] := by
  have e1 := @upsertStep_notfound md esc emptyStore t1 rfl rfl
  have htitle : (taskTitle t1).take 255 = taskTitle t2 := by
    rw [take_of_length_le _ _ h_len]
    exact h_t
  have hsearch : (searchArticles (upsertStep false md esc emptyStore t1).1
      (taskTitle t2)).head? =
      some ⟨0, (taskTitle t1).take 255, payloadBody md esc t1⟩ := by
    rw [e1]
    simp [searchArticles, emptyStore, htitle]
  have e2 := @upsertStep_found1 md esc (upsertStep false md esc emptyStore t1).1 t2 _ hsearch
  refine ⟨rfl, ?_, ?_, ?_⟩
  · rw [e1]
  · rw [e2, update_trace_eq]
  · rw [e2, update_articles_eq, e1]
    simp [emptyStore]

/-- Witness for claim C9 at two concrete tasks with the same title. -/
theorem claimC9_witness :
    searchQueries (taskTitle ⟨"2", "A", "", ""⟩) "2" =
      [taskTitle (⟨"2", "A", "", ""⟩ : Task),
       taskTitle (⟨"2", "A", "", ""⟩ : Task) ++ " [" ++ "2" ++ "]"] ∧
    (upsertStep false (fun s => s) (fun s => s) emptyStore ⟨"1", "A", "", ""⟩).2 =
      [.create ((taskTitle ⟨"1", "A", "", ""⟩).take 255)
        (payloadBody (fun s => s) (fun s => s) ⟨"1", "A", "", ""⟩)] ∧
    (upsertStep false (fun s => s) (fun s => s)
        (upsertStep false (fun s => s) (fun s => s) emptyStore ⟨"1", "A", "", ""⟩).1
        ⟨"2", "A", "", ""⟩).2 =
      [.update 0 ((taskTitle ⟨"2", "A", "", ""⟩).take 255)
        (payloadBody (fun s => s) (fun s => s) ⟨"2", "A", "", ""⟩)] ∧
    (upsertStep false (fun s => s) (fun s => s)
        (upsertStep false (fun s => s) (fun s => s) emptyStore ⟨"1", "A", "", ""⟩).1
        ⟨"2", "A", "", ""⟩).1.articles =
      [⟨0, (taskTitle ⟨"2", "A", "", ""⟩).take 255,
        payloadBody (fun s => s) (fun s => s) ⟨"2", "A", "", ""⟩⟩] :=
  claimC9 (fun s => s) (fun s => s) ⟨"1", "A", "", ""⟩ ⟨"2", "A", "", ""⟩
    (by decide) (by decide) (by decide)

/-- Claim C10: if every search query raises a transport error, the
existence check returns none instead of propagating, and the resolver then
creates — an already-mirrored record gains a second document with the same
title. -/
theorem claimC10 (md esc : String → String)
    (search : String → Except Unit (List Article)) (st : Store) (t : Task)
    (a : Article)
    (h_fail : ∀ q ∈ searchQueries (taskTitle t) t.id, search q = .error ())
    (h_mem : a ∈ st.articles) (h_title : a.title = taskTitle t)
    (h_len : (taskTitle t).length ≤ 255) :
    find_existing_article search (taskTitle t) t.id = none ∧
    (upsert_internal_article false md esc search st t).2 =
      [.create ((taskTitle t).take 255) (payloadBody md esc t)] ∧
    (upsert_internal_article false md esc search st t).1.articles =
      st.articles ++ [⟨st.nextId, (taskTitle t).take 255, payloadBody md esc t⟩] ∧
    2 ≤ (searchArticles (upsert_internal_article false md esc search st t).1
      (taskTitle t)).length := by
  have hf1 : search (taskTitle t) = .error () :=
    h_fail (taskTitle t) (by simp [searchQueries])
  have hf2 : search (taskTitle t ++ " [" ++ t.id ++ "]") = .error () :=
    h_fail (taskTitle t ++ " [" ++ t.id ++ "]") (by simp [searchQueries])
  have hfind : find_existing_article search (taskTitle t) t.id = none := by
    simp [find_existing_article, searchQueries, queriesLoop, hf1, hf2]
  have hup : (upsert_internal_article false md esc search st t).1 =
      (create_internal_article false md esc st t).1 ∧
      (upsert_internal_article false md esc search st t).2 =
      (create_internal_article false md esc st t).2.1 := by
    constructor <;> simp only [upsert_internal_article, hfind]
  refine ⟨hfind, ?_, ?_, ?_⟩
  · rw [hup.2, create_trace_eq]
  · rw [hup.1, create_articles_eq]
  · rw [hup.1]
    unfold searchArticles
    rw [create_articles_eq, List.filter_append]
    rw [List.length_append]
    have hone : 0 < (List.filter (fun b : Article => b.title = taskTitle t)
        st.articles).length := by
      have hmm : a ∈ List.filter (fun b : Article => b.title = taskTitle t) st.articles :=
        List.mem_filter.2 ⟨h_mem, by simp [h_title]⟩
      exact List.length_pos.2 (List.ne_nil_of_mem hmm)
    have hnew : (List.filter (fun b : Article => b.title = taskTitle t)
        [⟨st.nextId, (taskTitle t).take 255, payloadBody md esc t⟩]).length = 1 := by
      simp [List.filter, take_of_length_le _ _ h_len]
    omega

/-- Witness for claim C10 at a concrete failing transport over a store that
already holds the mirrored document. -/
theorem claimC10_witness :
    find_existing_article (fun _ => .error ()) (taskTitle ⟨"t1", "A", "", ""⟩) "t1" =
      none ∧
    (upsert_internal_article false (fun s => s) (fun s => s) (fun _ => .error ())
        ⟨[⟨0, "A", "b"⟩], 1⟩ ⟨"t1", "A", "", ""⟩).2 =
      [.create ((taskTitle ⟨"t1", "A", "", ""⟩).take 255)
        (payloadBody (fun s => s) (fun s => s) ⟨"t1", "A", "", ""⟩)] ∧
    (upsert_internal_article false (fun s => s) (fun s => s) (fun _ => .error ())
        ⟨[⟨0, "A", "b"⟩], 1⟩ ⟨"t1", "A", "", ""⟩).1.articles =
      [⟨0, "A", "b"⟩] ++ [⟨1, (taskTitle ⟨"t1", "A", "", ""⟩).take 255,
        payloadBody (fun s => s) (fun s => s) ⟨"t1", "A", "", ""⟩⟩] ∧
    2 ≤ (searchArticles
      (upsert_internal_article false (fun s => s) (fun s => s) (fun _ => .error ())
        ⟨[⟨0, "A", "b"⟩], 1⟩ ⟨"t1", "A", "", ""⟩).1
      (taskTitle ⟨"t1", "A", "", ""⟩)).length :=
  claimC10 (fun s => s) (fun s => s) (fun _ => .error ()) ⟨[⟨0, "A", "b"⟩], 1⟩
    ⟨"t1", "A", "", ""⟩ ⟨0, "A", "b"⟩ (fun q _ => rfl) (by decide) (by decide)
    (by decide)

/-- Strings of different lengths differ. -/
theorem ne_of_length_ne {s t : String} (h : s.length ≠ t.length) : s ≠ t :=
  fun e => h (congrArg String.length e)

theorem take_255_replicate_256 :
    (List.replicate 256 'a').take 255 = List.replicate 255 'a' := by
  have h := List.take_left (List.replicate 255 'a') (List.replicate 1 'a')
  rw [List.length_replicate] at h
  rw [← List.replicate_add] at h
  exact h

/-- Truncating the 256-character title to the 255-character cap. -/
theorem longA_take :
    (String.mk (List.replicate 256 'a')).take 255 =
      String.mk (List.replicate 255 'a') := by
  rw [String.take_eq]
  show String.mk ((List.replicate 256 'a').take 255) = _
  rw [take_255_replicate_256]

theorem taskTitle_longA (i : String) :
    taskTitle ⟨i, String.mk (List.replicate 256 'a'), "", ""⟩ =
      String.mk (List.replicate 256 'a') := by
  have hne : String.mk (List.replicate 256 'a') ≠ "" := by decide
  simp [taskTitle, hne]

/-- A query matched by no article title finds nothing. -/
theorem searchArticles_eq_nil {st : Store} {q : String}
    (h : ∀ a ∈ st.articles, a.title ≠ q) : searchArticles st q = [] := by
  unfold searchArticles
  rw [List.filter_eq_nil_iff]
  intro a ha
  simpa using h a ha

/-- After creating the document for a 256-character-titled task, any query
whose length is not 255 misses the store (the stored title was truncated
to 255 characters). -/
theorem longTitle_search_none (md esc : String → String) (i q : String)
    (hq : q.length ≠ 255) :
    (searchArticles
      (upsertStep false md esc emptyStore
        ⟨i, String.mk (List.replicate 256 'a'), "", ""⟩).1 q).head? = none := by
  have e1 := @upsertStep_notfound md esc emptyStore
    ⟨i, String.mk (List.replicate 256 'a'), "", ""⟩ rfl rfl
  have e1p : (upsertStep false md esc emptyStore
      ⟨i, String.mk (List.replicate 256 'a'), "", ""⟩).1 =
      ⟨emptyStore.articles ++
        [⟨emptyStore.nextId,
          (taskTitle ⟨i, String.mk (List.replicate 256 'a'), "", ""⟩).take 255,
          payloadBody md esc ⟨i, String.mk (List.replicate 256 'a'), "", ""⟩⟩],
        emptyStore.nextId + 1⟩ := by rw [e1]
  rw [e1p]
  have hnil : searchArticles
      ⟨emptyStore.articles ++
        [⟨emptyStore.nextId,
          (taskTitle ⟨i, String.mk (List.replicate 256 'a'), "", ""⟩).take 255,
          payloadBody md esc ⟨i, String.mk (List.replicate 256 'a'), "", ""⟩⟩],
        emptyStore.nextId + 1⟩ q = [] := by
    apply searchArticles_eq_nil
    intro a ha
    simp only [emptyStore, List.nil_append, List.mem_singleton] at ha
    rw [ha, title_mk, taskTitle_longA, longA_take]
    apply ne_of_length_ne
    rw [String.length_mk, List.length_replicate]
    omega
  rw [hnil]
  rfl

/-- Claim C9 (counterexample): two distinct records sharing a
256-character title do NOT map to the same target document — the first
upsert creates document 0, and the second record's searches (256- and
260-character queries) miss the 255-character truncated stored title, so
the second record creates its own document 1. -/
theorem claimC9_counterexample :
    ((⟨"1", String.mk (List.replicate 256 'a'), "", ""⟩ : Task).id ≠
      (⟨"2", String.mk (List.replicate 256 'a'), "", ""⟩ : Task).id) ∧
    taskTitle ⟨"1", String.mk (List.replicate 256 'a'), "", ""⟩ =
      taskTitle ⟨"2", String.mk (List.replicate 256 'a'), "", ""⟩ ∧
    (upsertStep false (fun s => s) (fun s => s) emptyStore
      ⟨"1", String.mk (List.replicate 256 'a'), "", ""⟩).1.articles.map Article.id
      = [0] ∧
    (upsertStep false (fun s => s) (fun s => s)
      (upsertStep false (fun s => s) (fun s => s) emptyStore
        ⟨"1", String.mk (List.replicate 256 'a'), "", ""⟩).1
      ⟨"2", String.mk (List.replicate 256 'a'), "", ""⟩).1.articles.map Article.id
      = [0, 1] := by
  have e1 := @upsertStep_notfound (fun s => s) (fun s => s) emptyStore
    ⟨"1", String.mk (List.replicate 256 'a'), "", ""⟩ rfl rfl
  have e1p : (upsertStep false (fun s => s) (fun s => s) emptyStore
      ⟨"1", String.mk (List.replicate 256 'a'), "", ""⟩).1 =
      ⟨emptyStore.articles ++
        [⟨emptyStore.nextId,
          (taskTitle ⟨"1", String.mk (List.replicate 256 'a'), "", ""⟩).take 255,
          payloadBody (fun s => s) (fun s => s)
            ⟨"1", String.mk (List.replicate 256 'a'), "", ""⟩⟩],
        emptyStore.nextId + 1⟩ := by rw [e1]
  have h1 := longTitle_search_none (fun s => s) (fun s => s) "1"
    (taskTitle ⟨"2", String.mk (List.replicate 256 'a'), "", ""⟩)
    (by rw [taskTitle_longA, String.length_mk, List.length_replicate]; omega)
  have h2 := longTitle_search_none (fun s => s) (fun s => s) "1"
    (suffixedQ ⟨"2", String.mk (List.replicate 256 'a'), "", ""⟩)
    (by rw [suffixedQ, taskTitle_longA]
        simp only [String.length_append, String.length_mk, List.length_replicate]
        omega)
  have e2 := @upsertStep_notfound (fun s => s) (fun s => s)
    (upsertStep false (fun s => s) (fun s => s) emptyStore
      ⟨"1", String.mk (List.replicate 256 'a'), "", ""⟩).1
    ⟨"2", String.mk (List.replicate 256 'a'), "", ""⟩ h1 h2
  have e2p : (upsertStep false (fun s => s) (fun s => s)
      (upsertStep false (fun s => s) (fun s => s) emptyStore
        ⟨"1", String.mk (List.replicate 256 'a'), "", ""⟩).1
      ⟨"2", String.mk (List.replicate 256 'a'), "", ""⟩).1.articles =
      (upsertStep false (fun s => s) (fun s => s) emptyStore
        ⟨"1", String.mk (List.replicate 256 'a'), "", ""⟩).1.articles ++
      [⟨(upsertStep false (fun s => s) (fun s => s) emptyStore
          ⟨"1", String.mk (List.replicate 256 'a'), "", ""⟩).1.nextId,
        (taskTitle ⟨"2", String.mk (List.replicate 256 'a'), "", ""⟩).take 255,
        payloadBody (fun s => s) (fun s => s)
          ⟨"2", String.mk (List.replicate 256 'a'), "", ""⟩⟩] := by rw [e2]
  refine ⟨by decide, by rw [taskTitle_longA, taskTitle_longA], ?_, ?_⟩
  · rw [e1p]
    simp [emptyStore]
  · rw [e2p, List.map_append, e1p]
    simp [emptyStore]

/-- Claim C2 (counterexample): a second run is not create-free in general.
Part one: with a record titled `A [B]` and a record with title `A` and id
`B`, the second record's id-suffixed query hijacks the first record's
document in run one (retitling it to `A`), so run two misses it and
creates — the store grows from 1 to 2 documents.  Part two: a single
record with a 256-character title is created truncated to 255 characters
in run one, so run two's exact-title searches miss it and create again. -/
theorem claimC2_counterexample :
    ((runSync false (fun s => s) (fun s => s) emptyStore
        [⟨"u1", "A [B]", "", ""⟩, ⟨"B", "A", "", ""⟩]).1.articles.length = 1 ∧
      (runSync false (fun s => s) (fun s => s)
        (runSync false (fun s => s) (fun s => s) emptyStore
          [⟨"u1", "A [B]", "", ""⟩, ⟨"B", "A", "", ""⟩]).1
        [⟨"u1", "A [B]", "", ""⟩, ⟨"B", "A", "", ""⟩]).1.articles.length = 2) ∧
    ((runSync false (fun s => s) (fun s => s) emptyStore
        [⟨"1", String.mk (List.replicate 256 'a'), "", ""⟩]).1.articles.length = 1 ∧
      (runSync false (fun s => s) (fun s => s)
        (runSync false (fun s => s) (fun s => s) emptyStore
          [⟨"1", String.mk (List.replicate 256 'a'), "", ""⟩]).1
        [⟨"1", String.mk (List.replicate 256 'a'), "", ""⟩]).1.articles.length = 2) := by
  have hsingle : ∀ st : Store,
      (runSync false (fun s => s) (fun s => s) st
        [⟨"1", String.mk (List.replicate 256 'a'), "", ""⟩]).1 =
      (upsertStep false (fun s => s) (fun s => s) st
        ⟨"1", String.mk (List.replicate 256 'a'), "", ""⟩).1 :=
    fun st => rfl
  have e1 := @upsertStep_notfound (fun s => s) (fun s => s) emptyStore
    ⟨"1", String.mk (List.replicate 256 'a'), "", ""⟩ rfl rfl
  have e1p : (upsertStep false (fun s => s) (fun s => s) emptyStore
      ⟨"1", String.mk (List.replicate 256 'a'), "", ""⟩).1 =
      ⟨emptyStore.articles ++
        [⟨emptyStore.nextId,
          (taskTitle ⟨"1", String.mk (List.replicate 256 'a'), "", ""⟩).take 255,
          payloadBody (fun s => s) (fun s => s)
            ⟨"1", String.mk (List.replicate 256 'a'), "", ""⟩⟩],
        emptyStore.nextId + 1⟩ := by rw [e1]
  have h1 := longTitle_search_none (fun s => s) (fun s => s) "1"
    (taskTitle ⟨"1", String.mk (List.replicate 256 'a'), "", ""⟩)
    (by rw [taskTitle_longA, String.length_mk, List.length_replicate]; omega)
  have h2 := longTitle_search_none (fun s => s) (fun s => s) "1"
    (suffixedQ ⟨"1", String.mk (List.replicate 256 'a'), "", ""⟩)
    (by rw [suffixedQ, taskTitle_longA]
        simp only [String.length_append, String.length_mk, List.length_replicate]
        omega)
  have e2 := @upsertStep_notfound (fun s => s) (fun s => s)
    (upsertStep false (fun s => s) (fun s => s) emptyStore
      ⟨"1", String.mk (List.replicate 256 'a'), "", ""⟩).1
    ⟨"1", String.mk (List.replicate 256 'a'), "", ""⟩ h1 h2
  have e2p : (upsertStep false (fun s => s) (fun s => s)
      (upsertStep false (fun s => s) (fun s => s) emptyStore
        ⟨"1", String.mk (List.replicate 256 'a'), "", ""⟩).1
      ⟨"1", String.mk (List.replicate 256 'a'), "", ""⟩).1.articles =
      (upsertStep false (fun s => s) (fun s => s) emptyStore
        ⟨"1", String.mk (List.replicate 256 'a'), "", ""⟩).1.articles ++
      [⟨(upsertStep false (fun s => s) (fun s => s) emptyStore
          ⟨"1", String.mk (List.replicate 256 'a'), "", ""⟩).1.nextId,
        (taskTitle ⟨"1", String.mk (List.replicate 256 'a'), "", ""⟩).take 255,
        payloadBody (fun s => s) (fun s => s)
          ⟨"1", String.mk (List.replicate 256 'a'), "", ""⟩⟩] := by rw [e2]
  refine ⟨by decide, ?_, ?_⟩
  · rw [hsingle, e1p]
    simp [emptyStore]
  · rw [hsingle, hsingle, e2p, List.length_append, e1p]
    simp [emptyStore]

end Synch
